import Mathlib

/-!
Shallow embedding of `src/bench_target.rs` from cargo-criterion.

The module under verification orchestrates a single benchmark-target run:
it binds an ephemeral TCP listener, spawns the target executable, races a
non-blocking accept against the child's exit status, and — once a
connection is accepted — drives a protocol event loop that receives
lifecycle messages and interleaves child-liveness polls.

The external world (OS socket calls, child process, framed connection) is
modelled by oracle scripts: each loop iteration consumes one script entry
recording what the corresponding external calls would have returned.  The
embedded functions return the run's outcome (`none` when the script is
exhausted while the loop would still be spinning) together with a trace of
the external actions actually performed, in order.  Temporal claims about
the code ("no further recv", "accept is attempted before the exit poll")
become statements about these traces.
-/

/-- Opaque OS-level I/O error (`std::io::Error`); the code never inspects
its contents beyond `kind() == WouldBlock`, which is modelled separately
in `AcceptResult`. -/
structure IoErr where
  code : Nat
deriving DecidableEq, Repr

/-- Opaque framing/decoding error from the connection layer
(`connection::MessageError`); `bench_target.rs` only wraps it. -/
structure MessageError where
  code : Nat
deriving DecidableEq, Repr

/-- Opaque connection-establishment error
(`connection::ConnectionError`); `bench_target.rs` only wraps it. -/
structure ConnectionError where
  code : Nat
deriving DecidableEq, Repr

/-- `std::process::ExitStatus`, reduced to the exit code the module
observes through `.success()`. -/
structure ExitStatus where
  code : Int
deriving DecidableEq, Repr

/-- `ExitStatus::success`: exit code zero. -/
def ExitStatus.success (s : ExitStatus) : Bool :=
  s.code == 0

/-- Opaque benchmark identifier payload (`connection::BenchmarkId`). -/
structure BenchmarkId where
  raw : String
deriving DecidableEq, Repr

/-- `connection::IncomingMessage`: the child-to-parent protocol messages
dispatched in `BenchTarget::communicate`.  Payloads are carried but never
inspected by the module (it only prints them). -/
inductive IncomingMessage
  | BeginningBenchmarkGroup (group : String)
  | FinishedBenchmarkGroup (group : String)
  | BeginningBenchmark (id : BenchmarkId)
  | SkippingBenchmark (id : BenchmarkId)
  | Warmup (id : BenchmarkId) (nanos : Nat)
  | MeasurementStart (id : BenchmarkId) (sample_count : Nat) (estimate_ns : Nat)
      (iter_count : Nat) (added_runner : Option Nat)
  | MeasurementComplete (id : BenchmarkId) (iters : List Nat) (times : List Nat)
deriving DecidableEq, Repr

/-- `connection::OutgoingMessage`: the only parent-to-child message the
module ever sends. -/
inductive OutgoingMessage
  | RunBenchmark
deriving DecidableEq, Repr

/-- `TargetError` (bench_target.rs lines 9-15): the four error kinds, each
tagged with the originating target's name. -/
inductive TargetError
  | IoError (name : String) (e : IoErr)
  | TargetFailed (name : String) (status : ExitStatus)
  | MessageError (name : String) (e : MessageError)
  | ConnectionError (name : String) (e : ConnectionError)
deriving DecidableEq, Repr

/-- The target-name tag carried by every `TargetError` variant. -/
def TargetError.targetName : TargetError → String
  | TargetError.IoError name _ => name
  | TargetError.TargetFailed name _ => name
  | TargetError.MessageError name _ => name
  | TargetError.ConnectionError name _ => name

/-- The wrapped underlying cause a `TargetError` can expose through
`std::error::Error::source`. -/
inductive ErrCause
  | io (e : IoErr)
  | msg (e : MessageError)
  | conn (e : ConnectionError)
deriving DecidableEq, Repr

/-- `impl std::error::Error for TargetError { fn source(...) }`
(bench_target.rs lines 42-51): `TargetFailed` exposes no cause, the other
three variants expose their wrapped error. -/
def TargetError.source : TargetError → Option ErrCause
  | TargetError.TargetFailed _ _ => none
  | TargetError.IoError _ e => some (ErrCause.io e)
  | TargetError.MessageError _ e => some (ErrCause.msg e)
  | TargetError.ConnectionError _ e => some (ErrCause.conn e)

/-- `BenchTarget` (bench_target.rs lines 54-58): name and executable path
of a compiled benchmark executable. -/
structure BenchTarget where
  name : String
  executable : String
deriving DecidableEq, Repr

/-- Stdio configuration used by `Command` (`Stdio::null()` /
`Stdio::inherit()`). -/
inductive Stdio
  | null
  | inherit
deriving DecidableEq, Repr

/-- The fully configured `std::process::Command` the module builds before
spawning (bench_target.rs lines 76-84). -/
structure Command where
  program : String
  args : List String
  env : List (String × String)
  stdin : Stdio
  stdout : Stdio
  stderr : Stdio
deriving DecidableEq, Repr

/-- Command construction from `execute` (lines 76-84): leading `--bench`
argument, then the caller's additional arguments; environment gets
`CRITERION_HOME` and `CARGO_CRITERION_PORT`; stdin null, stdout and
stderr inherited. -/
def buildCommand (executable : String) (criterion_home : String)
    (additional_args : List String) (port : Nat) : Command :=
  { program := executable
    args := ["--bench"] ++ additional_args
    env := [("CRITERION_HOME", criterion_home),
            ("CARGO_CRITERION_PORT", toString port)]
    stdin := Stdio.null
    stdout := Stdio.inherit
    stderr := Stdio.inherit }

/-- Equality of `Except` values is decidable when it is on both sides;
core does not provide this instance. -/
instance {ε α : Type} [DecidableEq ε] [DecidableEq α] :
    DecidableEq (Except ε α) := fun x y =>
  match x, y with
  | Except.error a, Except.error b =>
      if h : a = b then isTrue (by rw [h])
      else isFalse (by intro hc; cases hc; exact h rfl)
  | Except.error _, Except.ok _ => isFalse (by intro hc; cases hc)
  | Except.ok _, Except.error _ => isFalse (by intro hc; cases hc)
  | Except.ok a, Except.ok b =>
      if h : a = b then isTrue (by rw [h])
      else isFalse (by intro hc; cases hc; exact h rfl)

/-- Outcome of one non-blocking `listener.accept()` call: a connection, a
`WouldBlock` error, or any other I/O error. -/
inductive AcceptResult
  | ok
  | wouldBlock
  | err (e : IoErr)
deriving DecidableEq, Repr

/-- The kind of accept outcome recorded in the action trace. -/
inductive AcceptKind
  | ok
  | wouldBlock
  | err
deriving DecidableEq, Repr

/-- One external action performed by the run, in the order the code makes
the corresponding calls. -/
inductive Act
  | spawn (cmd : Command)
  | accept (kind : AcceptKind)
  | connNew
  | recv
  | send (msg : OutgoingMessage)
  | tryWait
deriving DecidableEq, Repr

/-- Oracle entry for one iteration of the protocol event loop: what
`conn.recv()`, `conn.send(RunBenchmark)` (consulted only when the
received message is `BeginningBenchmark`) and `child.try_wait()` would
return. -/
structure CommEvent where
  recvResult : Except MessageError (Option IncomingMessage)
  sendResult : Except MessageError Unit
  waitResult : Except IoErr (Option ExitStatus)
deriving DecidableEq, Repr

/-- Oracle entry for one iteration of the acceptor loop: what
`listener.accept()`, `Connection::new` (consulted only on a successful
accept) and `child.try_wait()` (consulted only on `WouldBlock`) would
return. -/
structure AcceptEvent where
  acceptResult : AcceptResult
  connResult : Except ConnectionError Unit
  waitResult : Except IoErr (Option ExitStatus)
deriving DecidableEq, Repr

/-- The `child.try_wait()` match shared verbatim by the acceptor loop
(lines 108-123) and the protocol event loop (lines 175-190): a poll
failure is an `IoError`, an observed exit ends the run (`Ok` on success,
`TargetFailed` otherwise), and a still-running child continues with `k`,
the rest of the loop. -/
def afterWait (name : String) (w : Except IoErr (Option ExitStatus))
    (k : Option (Except TargetError Unit) × List Act) :
    Option (Except TargetError Unit) × List Act :=
  match w with
  | Except.error e =>
      (some (Except.error (TargetError.IoError name e)), [Act.tryWait])
  | Except.ok (some exit_status) =>
      if exit_status.success then
        (some (Except.ok ()), [Act.tryWait])
      else
        (some (Except.error (TargetError.TargetFailed name exit_status)),
          [Act.tryWait])
  | Except.ok none => (k.1, Act.tryWait :: k.2)

/-- `BenchTarget::communicate` (lines 130-192) over a recv/send/wait
oracle script.  Each iteration: `recv` (failure is a `MessageError`, a
`none` message returns `Ok` at once); dispatch on the message tag, where
only `BeginningBenchmark` sends `RunBenchmark` back (a send failure is a
`MessageError`); then poll the child via `afterWait`.  An exhausted
script means the loop is still running (`none`). -/
def communicate (name : String) :
    List CommEvent → Option (Except TargetError Unit) × List Act
  | [] => (none, [])
  | ev :: rest =>
    match ev.recvResult with
    | Except.error e =>
        (some (Except.error (TargetError.MessageError name e)), [Act.recv])
    | Except.ok none => (some (Except.ok ()), [Act.recv])
    | Except.ok (some message) =>
      match message with
      | IncomingMessage.BeginningBenchmarkGroup _ =>
          let r := afterWait name ev.waitResult (communicate name rest)
          (r.1, Act.recv :: r.2)
      | IncomingMessage.FinishedBenchmarkGroup _ =>
          let r := afterWait name ev.waitResult (communicate name rest)
          (r.1, Act.recv :: r.2)
      | IncomingMessage.BeginningBenchmark _ =>
          match ev.sendResult with
          | Except.error e =>
              (some (Except.error (TargetError.MessageError name e)),
                [Act.recv, Act.send OutgoingMessage.RunBenchmark])
          | Except.ok _ =>
              let r := afterWait name ev.waitResult (communicate name rest)
              (r.1, Act.recv :: Act.send OutgoingMessage.RunBenchmark :: r.2)
      | IncomingMessage.SkippingBenchmark _ =>
          let r := afterWait name ev.waitResult (communicate name rest)
          (r.1, Act.recv :: r.2)
      | IncomingMessage.Warmup _ _ =>
          let r := afterWait name ev.waitResult (communicate name rest)
          (r.1, Act.recv :: r.2)
      | IncomingMessage.MeasurementStart _ _ _ _ _ =>
          let r := afterWait name ev.waitResult (communicate name rest)
          (r.1, Act.recv :: r.2)
      | IncomingMessage.MeasurementComplete _ _ _ =>
          let r := afterWait name ev.waitResult (communicate name rest)
          (r.1, Act.recv :: r.2)

/-- The acceptor loop of `BenchTarget::execute` (lines 92-127) over an
accept/conn/wait oracle script.  Each iteration first attempts the
non-blocking accept: success wraps the socket in a `Connection` (failure
is a `ConnectionError`) and hands control to `communicate`; a
non-WouldBlock accept error is an `IoError`; only on `WouldBlock` is the
child polled via `afterWait`, after which the loop repeats. -/
def acceptLoop (name : String) (comm : List CommEvent) :
    List AcceptEvent → Option (Except TargetError Unit) × List Act
  | [] => (none, [])
  | ev :: rest =>
    match ev.acceptResult with
    | AcceptResult.ok =>
      match ev.connResult with
      | Except.error e =>
          (some (Except.error (TargetError.ConnectionError name e)),
            [Act.accept AcceptKind.ok, Act.connNew])
      | Except.ok _ =>
          let r := communicate name comm
          (r.1, Act.accept AcceptKind.ok :: Act.connNew :: r.2)
    | AcceptResult.wouldBlock =>
        let r := afterWait name ev.waitResult (acceptLoop name comm rest)
        (r.1, Act.accept AcceptKind.wouldBlock :: r.2)
    | AcceptResult.err e =>
        (some (Except.error (TargetError.IoError name e)),
          [Act.accept AcceptKind.err])

/-- The external-world oracle for one `execute` run: results of the bind,
set_nonblocking, local_addr and spawn calls, then the scripts driving the
acceptor loop and the protocol event loop. -/
structure ExecEnv where
  bindResult : Except IoErr Unit
  nonblockingResult : Except IoErr Unit
  localAddrResult : Except IoErr Nat
  spawnResult : Except IoErr Unit
  acceptorScript : List AcceptEvent
  commScript : List CommEvent
deriving DecidableEq, Repr

/-- `BenchTarget::execute` (lines 60-128): bind the listener, make it
non-blocking, query the local port, build and spawn the child command
(each failure an `IoError` tagged with the target's name), then run the
acceptor loop. -/
def execute (t : BenchTarget) (criterion_home : String)
    (additional_args : List String) (world : ExecEnv) :
    Option (Except TargetError Unit) × List Act :=
  match world.bindResult with
  | Except.error e => (some (Except.error (TargetError.IoError t.name e)), [])
  | Except.ok _ =>
    match world.nonblockingResult with
    | Except.error e => (some (Except.error (TargetError.IoError t.name e)), [])
    | Except.ok _ =>
      match world.localAddrResult with
      | Except.error e => (some (Except.error (TargetError.IoError t.name e)), [])
      | Except.ok port =>
        let command := buildCommand t.executable criterion_home additional_args port
        match world.spawnResult with
        | Except.error e =>
            (some (Except.error (TargetError.IoError t.name e)),
              [Act.spawn command])
        | Except.ok _ =>
            let r := acceptLoop t.name world.commScript world.acceptorScript
            (r.1, Act.spawn command :: r.2)

/-! ### Helper predicates and trace counters -/

/-- The received message of this iteration is `BeginningBenchmark`, the
only tag answered with an outgoing `RunBenchmark`. -/
def CommEvent.repliesRun (ev : CommEvent) : Bool :=
  match ev.recvResult with
  | Except.ok (some (IncomingMessage.BeginningBenchmark _)) => true
  | _ => false

/-- The iteration receives a message and handles it without a fatal
send failure: recv yields a message, and if that message is
`BeginningBenchmark` the reply send succeeds. -/
def CommEvent.handled (ev : CommEvent) : Bool :=
  match ev.recvResult with
  | Except.ok (some (IncomingMessage.BeginningBenchmark _)) =>
      match ev.sendResult with
      | Except.ok _ => true
      | Except.error _ => false
  | Except.ok (some _) => true
  | _ => false

/-- The post-message child poll reports the child still running. -/
def CommEvent.waitsNone (ev : CommEvent) : Bool :=
  match ev.waitResult with
  | Except.ok none => true
  | _ => false

/-- A protocol-loop iteration that neither terminates the run nor errs:
the message is handled and the child is still running. -/
def CommEvent.continues (ev : CommEvent) : Bool :=
  ev.handled && ev.waitsNone

/-- The actions one continuing protocol-loop iteration performs. -/
def iterActs (ev : CommEvent) : List Act :=
  if ev.repliesRun then
    [Act.recv, Act.send OutgoingMessage.RunBenchmark, Act.tryWait]
  else
    [Act.recv, Act.tryWait]

/-- The actions of a block of continuing protocol-loop iterations. -/
def iterActsAll : List CommEvent → List Act
  | [] => []
  | ev :: rest => iterActs ev ++ iterActsAll rest

/-- An acceptor-loop iteration that keeps spinning: accept would block
and the child is still running. -/
def AcceptEvent.spins (ev : AcceptEvent) : Bool :=
  match ev.acceptResult, ev.waitResult with
  | AcceptResult.wouldBlock, Except.ok none => true
  | _, _ => false

/-- The actions of a block of spinning acceptor-loop iterations. -/
def spinActs : List AcceptEvent → List Act
  | [] => []
  | _ :: rest => Act.accept AcceptKind.wouldBlock :: Act.tryWait :: spinActs rest

/-- Recognize a `recv` action. -/
def Act.isRecv : Act → Bool
  | Act.recv => true
  | _ => false

/-- Recognize a `try_wait` poll action. -/
def Act.isWait : Act → Bool
  | Act.tryWait => true
  | _ => false

/-- Recognize a `send` action. -/
def Act.isSend : Act → Bool
  | Act.send _ => true
  | _ => false

/-- Recognize any accept attempt. -/
def Act.isAccept : Act → Bool
  | Act.accept _ => true
  | _ => false

/-- Recognize a successful accept. -/
def Act.isAcceptOk : Act → Bool
  | Act.accept AcceptKind.ok => true
  | _ => false

/-- Number of `recv` calls in a trace. -/
def countRecv (l : List Act) : Nat := l.countP Act.isRecv

/-- Number of `try_wait` polls in a trace. -/
def countWait (l : List Act) : Nat := l.countP Act.isWait

/-- Number of accept attempts in a trace. -/
def countAccept (l : List Act) : Nat := l.countP Act.isAccept

/-- Number of successful accepts in a trace. -/
def countAcceptOk (l : List Act) : Nat := l.countP Act.isAcceptOk

/-- Number of accept attempts strictly after the first successful accept
of a trace (zero when no accept ever succeeds). -/
def acceptsAfterFirstOk : List Act → Nat
  | [] => 0
  | Act.accept AcceptKind.ok :: rest => countAccept rest
  | _ :: rest => acceptsAfterFirstOk rest

/-! ### Iteration lemmas for the protocol event loop -/

lemma communicate_cons_cont (name : String) (ev : CommEvent)
    (rest : List CommEvent) (h : ev.continues = true) :
    communicate name (ev :: rest) =
      ((communicate name rest).1, iterActs ev ++ (communicate name rest).2) := by
  obtain ⟨rr, sr, wr⟩ := ev
  cases rr with
  | error e => exact Bool.noConfusion h
  | ok om =>
    cases om with
    | none => exact Bool.noConfusion h
    | some m =>
      rcases m with g | g | id | id | ⟨id, n⟩ | ⟨id, a, b, c, d⟩ | ⟨id, a, b⟩ <;>
      rcases sr with se | su <;>
      rcases wr with we | (_ | st) <;>
      first
        | rfl
        | exact Bool.noConfusion h

lemma communicate_append (name : String) (pre s : List CommEvent)
    (h : ∀ e ∈ pre, e.continues = true) :
    communicate name (pre ++ s) =
      ((communicate name s).1, iterActsAll pre ++ (communicate name s).2) := by
  induction pre with
  | nil => simp [iterActsAll]
  | cons ev t ih =>
    have hev : ev.continues = true := h ev (List.mem_cons_self ev t)
    have ht : ∀ e ∈ t, e.continues = true :=
      fun e he => h e (List.mem_cons_of_mem ev he)
    rw [List.cons_append, communicate_cons_cont name ev (t ++ s) hev, ih ht]
    simp [iterActsAll, List.append_assoc]

lemma communicate_cons_exit (name : String) (ev : CommEvent)
    (rest : List CommEvent) (st : ExitStatus)
    (hh : ev.handled = true) (hw : ev.waitResult = Except.ok (some st)) :
    communicate name (ev :: rest) =
      (some (if st.success then Except.ok ()
             else Except.error (TargetError.TargetFailed name st)),
       iterActs ev) := by
  obtain ⟨rr, sr, wr⟩ := ev
  have hw2 : wr = Except.ok (some st) := hw
  subst hw2
  cases rr with
  | error e => exact Bool.noConfusion hh
  | ok om =>
    cases om with
    | none => exact Bool.noConfusion hh
    | some m =>
      rcases m with g | g | id | id | ⟨id, n⟩ | ⟨id, a, b, c, d⟩ | ⟨id, a, b⟩ <;>
      rcases sr with se | su <;>
      first
        | exact Bool.noConfusion hh
        | (cases hs : st.success <;>
            simp [communicate, afterWait, iterActs, CommEvent.repliesRun, hs])

lemma communicate_cons_eof (name : String) (ev : CommEvent)
    (rest : List CommEvent) (hr : ev.recvResult = Except.ok none) :
    communicate name (ev :: rest) = (some (Except.ok ()), [Act.recv]) := by
  obtain ⟨rr, sr, wr⟩ := ev
  have hr2 : rr = Except.ok none := hr
  subst hr2
  rfl

lemma countRecv_iterActs (ev : CommEvent) : countRecv (iterActs ev) = 1 := by
  cases hb : ev.repliesRun <;> simp [iterActs, hb, countRecv, Act.isRecv]

lemma countWait_iterActs (ev : CommEvent) : countWait (iterActs ev) = 1 := by
  cases hb : ev.repliesRun <;> simp [iterActs, hb, countWait, Act.isWait]

lemma countRecv_iterActsAll (pre : List CommEvent) :
    countRecv (iterActsAll pre) = pre.length := by
  induction pre with
  | nil => rfl
  | cons ev t ih =>
    rw [iterActsAll,
        show countRecv (iterActs ev ++ iterActsAll t) =
          countRecv (iterActs ev) + countRecv (iterActsAll t) from
          List.countP_append _ _ _,
        countRecv_iterActs, ih, List.length_cons]
    omega

lemma countWait_iterActsAll (pre : List CommEvent) :
    countWait (iterActsAll pre) = pre.length := by
  induction pre with
  | nil => rfl
  | cons ev t ih =>
    rw [iterActsAll,
        show countWait (iterActs ev ++ iterActsAll t) =
          countWait (iterActs ev) + countWait (iterActsAll t) from
          List.countP_append _ _ _,
        countWait_iterActs, ih, List.length_cons]
    omega

/-! ### Iteration lemmas for execute and the acceptor loop -/

lemma execute_run (t : BenchTarget) (home : String) (args : List String)
    (p : Nat) (ascript : List AcceptEvent) (comm : List CommEvent) :
    execute t home args
      ⟨Except.ok (), Except.ok (), Except.ok p, Except.ok (), ascript, comm⟩ =
      ((acceptLoop t.name comm ascript).1,
        Act.spawn (buildCommand t.executable home args p) ::
          (acceptLoop t.name comm ascript).2) := rfl

lemma acceptLoop_cons_ok (name : String) (comm : List CommEvent)
    (ev : AcceptEvent) (rest : List AcceptEvent)
    (ha : ev.acceptResult = AcceptResult.ok) (hc : ev.connResult = Except.ok ()) :
    acceptLoop name comm (ev :: rest) =
      ((communicate name comm).1,
        Act.accept AcceptKind.ok :: Act.connNew :: (communicate name comm).2) := by
  obtain ⟨ar, cr, wr⟩ := ev
  have ha2 : ar = AcceptResult.ok := ha
  have hc2 : cr = Except.ok () := hc
  subst ha2
  subst hc2
  rfl

/-- Claim C1: in the protocol event loop, after handling any message the
child's exit status is polled before another recv; over any run prefix of
continuing iterations followed by an iteration whose message is handled
and whose poll observes an exit, `communicate` returns `TargetFailed`
when the observed status is non-success and `Ok` when it is success, and
in either case the total number of `recv` calls is exactly the messages
handled so far — no further recv is attempted, whatever the rest of the
script holds. -/
theorem claim_C1 (name : String) (pre : List CommEvent) (ev : CommEvent)
    (rest : List CommEvent) (st : ExitStatus)
    (hpre : ∀ e ∈ pre, e.continues = true)
    (hh : ev.handled = true)
    (hw : ev.waitResult = Except.ok (some st)) :
    (communicate name (pre ++ ev :: rest)).1 =
      some (if st.success then Except.ok ()
            else Except.error (TargetError.TargetFailed name st))
    ∧ countRecv (communicate name (pre ++ ev :: rest)).2 = pre.length + 1 := by
  rw [communicate_append name pre (ev :: rest) hpre,
      communicate_cons_exit name ev rest st hh hw]
  refine ⟨rfl, ?_⟩
  show countRecv (iterActsAll pre ++ iterActs ev) = pre.length + 1
  rw [show countRecv (iterActsAll pre ++ iterActs ev) =
        countRecv (iterActsAll pre) + countRecv (iterActs ev) from
        List.countP_append _ _ _,
      countRecv_iterActsAll, countRecv_iterActs]

theorem claim_C1_witness :
    (communicate "t"
      ([⟨Except.ok (some (IncomingMessage.BeginningBenchmarkGroup "g")),
          Except.ok (), Except.ok none⟩] ++
        ⟨Except.ok (some (IncomingMessage.BeginningBenchmark ⟨"b"⟩)),
          Except.ok (), Except.ok (some ⟨1⟩)⟩ ::
        [⟨Except.ok none, Except.ok (), Except.ok none⟩])).1 =
      some (if (ExitStatus.mk 1).success then Except.ok ()
            else Except.error (TargetError.TargetFailed "t" ⟨1⟩))
    ∧ countRecv (communicate "t"
        ([⟨Except.ok (some (IncomingMessage.BeginningBenchmarkGroup "g")),
            Except.ok (), Except.ok none⟩] ++
          ⟨Except.ok (some (IncomingMessage.BeginningBenchmark ⟨"b"⟩)),
            Except.ok (), Except.ok (some ⟨1⟩)⟩ ::
          [⟨Except.ok none, Except.ok (), Except.ok none⟩])).2 =
        [(⟨Except.ok (some (IncomingMessage.BeginningBenchmarkGroup "g")),
            Except.ok (), Except.ok none⟩ : CommEvent)].length + 1 :=
  claim_C1 "t"
    [⟨Except.ok (some (IncomingMessage.BeginningBenchmarkGroup "g")),
        Except.ok (), Except.ok none⟩]
    ⟨Except.ok (some (IncomingMessage.BeginningBenchmark ⟨"b"⟩)),
        Except.ok (), Except.ok (some ⟨1⟩)⟩
    [⟨Except.ok none, Except.ok (), Except.ok none⟩]
    ⟨1⟩ (by decide) (by decide) rfl

/-- Claim C2: when recv on the established connection reports graceful
channel closure (`none`), `communicate` returns success immediately: over
any prefix of continuing iterations followed by an EOF iteration, the
result is `Ok`, the child is not polled again (the poll count stays at
one per earlier iteration), and `execute` with an accepted connection and
the same protocol script likewise returns success — the child's exit
status after EOF is irrelevant. -/
theorem claim_C2 (name : String) (pre : List CommEvent) (ev : CommEvent)
    (rest : List CommEvent)
    (hpre : ∀ e ∈ pre, e.continues = true)
    (hr : ev.recvResult = Except.ok none) :
    (communicate name (pre ++ ev :: rest)).1 = some (Except.ok ())
    ∧ countWait (communicate name (pre ++ ev :: rest)).2 = pre.length
    ∧ ∀ (t : BenchTarget) (home : String) (args : List String) (p : Nat)
        (aev : AcceptEvent) (atail : List AcceptEvent),
        aev.acceptResult = AcceptResult.ok → aev.connResult = Except.ok () →
        (execute t home args
          ⟨Except.ok (), Except.ok (), Except.ok p, Except.ok (),
            aev :: atail, pre ++ ev :: rest⟩).1 = some (Except.ok ()) := by
  have key : ∀ nm : String,
      communicate nm (pre ++ ev :: rest) =
        (some (Except.ok ()), iterActsAll pre ++ [Act.recv]) := by
    intro nm
    rw [communicate_append nm pre (ev :: rest) hpre,
        communicate_cons_eof nm ev rest hr]
  refine ⟨by rw [key name], ?_, ?_⟩
  · rw [key name]
    show countWait (iterActsAll pre ++ [Act.recv]) = pre.length
    rw [show countWait (iterActsAll pre ++ [Act.recv]) =
          countWait (iterActsAll pre) + countWait [Act.recv] from
          List.countP_append _ _ _,
        countWait_iterActsAll]
    rfl
  · intro t home args p aev atail ha hc
    rw [execute_run, acceptLoop_cons_ok t.name _ aev atail ha hc, key t.name]

theorem claim_C2_witness :
    (communicate "t"
      ([⟨Except.ok (some (IncomingMessage.BeginningBenchmark ⟨"b1"⟩)),
          Except.ok (), Except.ok none⟩] ++
        ⟨Except.ok none, Except.error ⟨0⟩, Except.ok (some ⟨7⟩)⟩ ::
        [⟨Except.error ⟨1⟩, Except.ok (), Except.ok none⟩])).1 =
      some (Except.ok ())
    ∧ countWait (communicate "t"
        ([⟨Except.ok (some (IncomingMessage.BeginningBenchmark ⟨"b1"⟩)),
            Except.ok (), Except.ok none⟩] ++
          ⟨Except.ok none, Except.error ⟨0⟩, Except.ok (some ⟨7⟩)⟩ ::
          [⟨Except.error ⟨1⟩, Except.ok (), Except.ok none⟩])).2 =
        [(⟨Except.ok (some (IncomingMessage.BeginningBenchmark ⟨"b1"⟩)),
            Except.ok (), Except.ok none⟩ : CommEvent)].length
    ∧ ∀ (t : BenchTarget) (home : String) (args : List String) (p : Nat)
        (aev : AcceptEvent) (atail : List AcceptEvent),
        aev.acceptResult = AcceptResult.ok → aev.connResult = Except.ok () →
        (execute t home args
          ⟨Except.ok (), Except.ok (), Except.ok p, Except.ok (),
            aev :: atail,
            [⟨Except.ok (some (IncomingMessage.BeginningBenchmark ⟨"b1"⟩)),
                Except.ok (), Except.ok none⟩] ++
              ⟨Except.ok none, Except.error ⟨0⟩, Except.ok (some ⟨7⟩)⟩ ::
              [⟨Except.error ⟨1⟩, Except.ok (), Except.ok none⟩]⟩).1 =
          some (Except.ok ()) :=
  claim_C2 "t"
    [⟨Except.ok (some (IncomingMessage.BeginningBenchmark ⟨"b1"⟩)),
        Except.ok (), Except.ok none⟩]
    ⟨Except.ok none, Except.error ⟨0⟩, Except.ok (some ⟨7⟩)⟩
    [⟨Except.error ⟨1⟩, Except.ok (), Except.ok none⟩]
    (by decide) (by decide)

lemma acceptLoop_cons_spin (name : String) (comm : List CommEvent)
    (ev : AcceptEvent) (rest : List AcceptEvent) (h : ev.spins = true) :
    acceptLoop name comm (ev :: rest) =
      ((acceptLoop name comm rest).1,
        Act.accept AcceptKind.wouldBlock :: Act.tryWait ::
          (acceptLoop name comm rest).2) := by
  obtain ⟨ar, cr, wr⟩ := ev
  rcases ar with _ | _ | e <;> rcases wr with we | (_ | st2) <;>
    first
      | rfl
      | exact Bool.noConfusion h

lemma acceptLoop_append_spin (name : String) (comm : List CommEvent)
    (pre s : List AcceptEvent) (h : ∀ e ∈ pre, e.spins = true) :
    acceptLoop name comm (pre ++ s) =
      ((acceptLoop name comm s).1,
        spinActs pre ++ (acceptLoop name comm s).2) := by
  induction pre with
  | nil => simp [spinActs]
  | cons ev t ih =>
    have hev : ev.spins = true := h ev (List.mem_cons_self ev t)
    have ht : ∀ e ∈ t, e.spins = true :=
      fun e he => h e (List.mem_cons_of_mem ev he)
    rw [List.cons_append, acceptLoop_cons_spin name comm ev (t ++ s) hev, ih ht]
    simp [spinActs]

lemma acceptLoop_cons_exit (name : String) (comm : List CommEvent)
    (ev : AcceptEvent) (rest : List AcceptEvent) (st : ExitStatus)
    (ha : ev.acceptResult = AcceptResult.wouldBlock)
    (hw : ev.waitResult = Except.ok (some st)) :
    acceptLoop name comm (ev :: rest) =
      (some (if st.success then Except.ok ()
             else Except.error (TargetError.TargetFailed name st)),
        [Act.accept AcceptKind.wouldBlock, Act.tryWait]) := by
  obtain ⟨ar, cr, wr⟩ := ev
  have ha2 : ar = AcceptResult.wouldBlock := ha
  have hw2 : wr = Except.ok (some st) := hw
  subst ha2
  subst hw2
  cases hs : st.success <;> simp [acceptLoop, afterWait, hs]

/-- Claim C3: when the child exits before any connection is accepted —
an acceptor-loop prefix of spinning iterations followed by an iteration
whose accept would block and whose poll observes an exit — `execute`
returns `Ok` exactly when the observed status is success, and otherwise a
`TargetFailed` error carrying exactly that observed exit status. -/
theorem claim_C3 (t : BenchTarget) (home : String) (args : List String)
    (p : Nat) (pre : List AcceptEvent) (ev : AcceptEvent)
    (rest : List AcceptEvent) (comm : List CommEvent) (st : ExitStatus)
    (hpre : ∀ e ∈ pre, e.spins = true)
    (ha : ev.acceptResult = AcceptResult.wouldBlock)
    (hw : ev.waitResult = Except.ok (some st)) :
    (execute t home args
      ⟨Except.ok (), Except.ok (), Except.ok p, Except.ok (),
        pre ++ ev :: rest, comm⟩).1 =
      some (if st.success then Except.ok ()
            else Except.error (TargetError.TargetFailed t.name st)) := by
  rw [execute_run, acceptLoop_append_spin t.name comm pre (ev :: rest) hpre,
      acceptLoop_cons_exit t.name comm ev rest st ha hw]

theorem claim_C3_witness :
    (execute ⟨"suite", "exe"⟩ "home" ["x"]
      ⟨Except.ok (), Except.ok (), Except.ok 9, Except.ok (),
        [⟨AcceptResult.wouldBlock, Except.ok (), Except.ok none⟩] ++
          ⟨AcceptResult.wouldBlock, Except.ok (), Except.ok (some ⟨2⟩)⟩ ::
          [⟨AcceptResult.ok, Except.ok (), Except.ok none⟩],
        []⟩).1 =
      some (if (ExitStatus.mk 2).success then Except.ok ()
            else Except.error
              (TargetError.TargetFailed (BenchTarget.mk "suite" "exe").name ⟨2⟩)) :=
  claim_C3 ⟨"suite", "exe"⟩ "home" ["x"] 9
    [⟨AcceptResult.wouldBlock, Except.ok (), Except.ok none⟩]
    ⟨AcceptResult.wouldBlock, Except.ok (), Except.ok (some ⟨2⟩)⟩
    [⟨AcceptResult.ok, Except.ok (), Except.ok none⟩]
    [] ⟨2⟩ (by decide) rfl rfl

/-- The only incoming tag answered with an outgoing message. -/
def IncomingMessage.beginsBenchmark : IncomingMessage → Bool
  | IncomingMessage.BeginningBenchmark _ => true
  | _ => false

/-- Claim C4: a received `BeginningBenchmark` message is answered by
exactly one outgoing `RunBenchmark` send before the next recv is
attempted (the iteration's actions are recv, the send, then the child
poll, and only then does the loop continue); a failing reply send aborts
the run with a `MessageError`; a message of any other tag sends nothing —
its iteration's actions are recv followed directly by the child poll. -/
theorem claim_C4 (name : String) (ev : CommEvent) (rest : List CommEvent) :
    (∀ id, ev.recvResult =
        Except.ok (some (IncomingMessage.BeginningBenchmark id)) →
      (ev.sendResult = Except.ok () →
        communicate name (ev :: rest) =
          ((afterWait name ev.waitResult (communicate name rest)).1,
            Act.recv :: Act.send OutgoingMessage.RunBenchmark ::
              (afterWait name ev.waitResult (communicate name rest)).2))
      ∧ ∀ e, ev.sendResult = Except.error e →
        communicate name (ev :: rest) =
          (some (Except.error (TargetError.MessageError name e)),
            [Act.recv, Act.send OutgoingMessage.RunBenchmark]))
    ∧ (∀ msg, ev.recvResult = Except.ok (some msg) →
        msg.beginsBenchmark = false →
        communicate name (ev :: rest) =
          ((afterWait name ev.waitResult (communicate name rest)).1,
            Act.recv ::
              (afterWait name ev.waitResult (communicate name rest)).2)) := by
  obtain ⟨rr, sr, wr⟩ := ev
  refine ⟨fun id hr => ⟨fun hs => ?_, fun e hs => ?_⟩, fun msg hr hb => ?_⟩
  · have hr2 : rr = Except.ok (some (IncomingMessage.BeginningBenchmark id)) := hr
    have hs2 : sr = Except.ok () := hs
    subst hr2
    subst hs2
    rfl
  · have hr2 : rr = Except.ok (some (IncomingMessage.BeginningBenchmark id)) := hr
    have hs2 : sr = Except.error e := hs
    subst hr2
    subst hs2
    rfl
  · have hr2 : rr = Except.ok (some msg) := hr
    subst hr2
    rcases msg with g | g | id | id | ⟨id, n⟩ | ⟨id, a, b, c, d⟩ | ⟨id, a, b⟩ <;>
      first
        | rfl
        | exact Bool.noConfusion hb

theorem claim_C4_witness :
    communicate "t"
      (⟨Except.ok (some (IncomingMessage.BeginningBenchmark ⟨"b"⟩)),
          Except.ok (), Except.ok none⟩ :: []) =
      ((afterWait "t" (Except.ok none) (communicate "t" [])).1,
        Act.recv :: Act.send OutgoingMessage.RunBenchmark ::
          (afterWait "t" (Except.ok none) (communicate "t" [])).2) :=
  ((claim_C4 "t"
      ⟨Except.ok (some (IncomingMessage.BeginningBenchmark ⟨"b"⟩)),
        Except.ok (), Except.ok none⟩ []).1 ⟨"b"⟩ rfl).1 rfl

/-! ### Trace shape lemmas -/

lemma afterWait_acts (name : String) (w : Except IoErr (Option ExitStatus))
    (k : Option (Except TargetError Unit) × List Act) :
    ∀ a ∈ (afterWait name w k).2, a = Act.tryWait ∨ a ∈ k.2 := by
  intro a ha
  rcases w with e | (_ | st)
  · simp [afterWait] at ha
    simp [ha]
  · simp [afterWait] at ha
    tauto
  · by_cases hs : st.success <;> simp [afterWait, hs] at ha <;> simp [ha]

lemma communicate_acts (name : String) (s : List CommEvent) :
    ∀ a ∈ (communicate name s).2,
      a = Act.recv ∨ a = Act.send OutgoingMessage.RunBenchmark ∨
        a = Act.tryWait := by
  induction s with
  | nil => intro a ha; simp [communicate] at ha
  | cons ev rest ih =>
    have haw : ∀ wr : Except IoErr (Option ExitStatus),
        ∀ b ∈ (afterWait name wr (communicate name rest)).2,
          b = Act.recv ∨ b = Act.send OutgoingMessage.RunBenchmark ∨
            b = Act.tryWait := by
      intro wr b hb
      rcases afterWait_acts name wr (communicate name rest) b hb with h | h
      · simp [h]
      · exact ih b h
    intro a ha
    obtain ⟨rr, sr, wr⟩ := ev
    rcases rr with re | (_ | m)
    · simp [communicate] at ha
      simp [ha]
    · simp [communicate] at ha
      simp [ha]
    · rcases m with g | g | id | id | ⟨id, n⟩ | ⟨id, a2, b2, c2, d2⟩ | ⟨id, a2, b2⟩
      · simp [communicate] at ha
        rcases ha with h | h
        · simp [h]
        · exact haw wr a h
      · simp [communicate] at ha
        rcases ha with h | h
        · simp [h]
        · exact haw wr a h
      · rcases sr with se | su
        · simp [communicate] at ha
          rcases ha with h | h <;> simp [h]
        · simp [communicate] at ha
          rcases ha with h | h | h
          · simp [h]
          · simp [h]
          · exact haw wr a h
      · simp [communicate] at ha
        rcases ha with h | h
        · simp [h]
        · exact haw wr a h
      · simp [communicate] at ha
        rcases ha with h | h
        · simp [h]
        · exact haw wr a h
      · simp [communicate] at ha
        rcases ha with h | h
        · simp [h]
        · exact haw wr a h
      · simp [communicate] at ha
        rcases ha with h | h
        · simp [h]
        · exact haw wr a h

lemma countAccept_communicate (name : String) (s : List CommEvent) :
    countAccept (communicate name s).2 = 0 := by
  rw [show countAccept (communicate name s).2 =
        List.countP Act.isAccept (communicate name s).2 from rfl,
      List.countP_eq_zero]
  intro a ha
  rcases communicate_acts name s a ha with h | h | h <;> simp [h, Act.isAccept]

lemma countAcceptOk_communicate (name : String) (s : List CommEvent) :
    countAcceptOk (communicate name s).2 = 0 := by
  rw [show countAcceptOk (communicate name s).2 =
        List.countP Act.isAcceptOk (communicate name s).2 from rfl,
      List.countP_eq_zero]
  intro a ha
  rcases communicate_acts name s a ha with h | h | h <;> simp [h, Act.isAcceptOk]

lemma acceptsAfterFirstOk_cons (a : Act) (l : List Act)
    (h : a.isAcceptOk = false) :
    acceptsAfterFirstOk (a :: l) = acceptsAfterFirstOk l := by
  rcases a with c | k | _ | _ | m | _ <;>
    first
      | rfl
      | (rcases k with _ | _ | _ <;>
          first
            | exact Bool.noConfusion h
            | rfl)

lemma countAcceptOk_afterWait (name : String)
    (w : Except IoErr (Option ExitStatus))
    (k : Option (Except TargetError Unit) × List Act)
    (h : countAcceptOk k.2 ≤ 1) :
    countAcceptOk (afterWait name w k).2 ≤ 1 := by
  rcases w with e | (_ | st)
  · show countAcceptOk [Act.tryWait] ≤ 1
    decide
  · show countAcceptOk (Act.tryWait :: k.2) ≤ 1
    rw [show countAcceptOk (Act.tryWait :: k.2) = countAcceptOk k.2 from
      List.countP_cons_of_neg _ _ (by simp [Act.isAcceptOk])]
    exact h
  · by_cases hs : st.success <;> simp [afterWait, hs] <;> decide

lemma acceptsAfterFirstOk_afterWait (name : String)
    (w : Except IoErr (Option ExitStatus))
    (k : Option (Except TargetError Unit) × List Act)
    (h : acceptsAfterFirstOk k.2 = 0) :
    acceptsAfterFirstOk (afterWait name w k).2 = 0 := by
  rcases w with e | (_ | st)
  · rfl
  · show acceptsAfterFirstOk (Act.tryWait :: k.2) = 0
    rw [acceptsAfterFirstOk_cons Act.tryWait k.2 rfl]
    exact h
  · by_cases hs : st.success <;> simp [afterWait, hs] <;> rfl

lemma acceptLoop_inv (name : String) (comm : List CommEvent)
    (s : List AcceptEvent) :
    countAcceptOk (acceptLoop name comm s).2 ≤ 1 ∧
    acceptsAfterFirstOk (acceptLoop name comm s).2 = 0 := by
  induction s with
  | nil => exact ⟨Nat.zero_le 1, rfl⟩
  | cons ev rest ih =>
    obtain ⟨ar, cr, wr⟩ := ev
    rcases ar with _ | _ | e
    · rcases cr with ce | cu
      · exact ⟨Nat.le_refl 1, rfl⟩
      · constructor
        · show countAcceptOk (Act.accept AcceptKind.ok :: Act.connNew ::
            (communicate name comm).2) ≤ 1
          rw [show countAcceptOk (Act.accept AcceptKind.ok :: Act.connNew ::
                (communicate name comm).2) =
              countAcceptOk (Act.connNew :: (communicate name comm).2) + 1 from
              List.countP_cons_of_pos _ _ (by simp [Act.isAcceptOk]),
            show countAcceptOk (Act.connNew :: (communicate name comm).2) =
              countAcceptOk (communicate name comm).2 from
              List.countP_cons_of_neg _ _ (by simp [Act.isAcceptOk]),
            countAcceptOk_communicate]
        · show acceptsAfterFirstOk (Act.accept AcceptKind.ok :: Act.connNew ::
            (communicate name comm).2) = 0
          rw [show acceptsAfterFirstOk (Act.accept AcceptKind.ok :: Act.connNew ::
                (communicate name comm).2) =
              countAccept (Act.connNew :: (communicate name comm).2) from rfl,
            show countAccept (Act.connNew :: (communicate name comm).2) =
              countAccept (communicate name comm).2 from
              List.countP_cons_of_neg _ _ (by simp [Act.isAccept]),
            countAccept_communicate]
    · constructor
      · show countAcceptOk (Act.accept AcceptKind.wouldBlock ::
          (afterWait name wr (acceptLoop name comm rest)).2) ≤ 1
        rw [show countAcceptOk (Act.accept AcceptKind.wouldBlock ::
              (afterWait name wr (acceptLoop name comm rest)).2) =
            countAcceptOk (afterWait name wr (acceptLoop name comm rest)).2 from
            List.countP_cons_of_neg _ _ (by simp [Act.isAcceptOk])]
        exact countAcceptOk_afterWait name wr _ ih.1
      · show acceptsAfterFirstOk (Act.accept AcceptKind.wouldBlock ::
          (afterWait name wr (acceptLoop name comm rest)).2) = 0
        rw [acceptsAfterFirstOk_cons (Act.accept AcceptKind.wouldBlock)
            (afterWait name wr (acceptLoop name comm rest)).2 rfl]
        exact acceptsAfterFirstOk_afterWait name wr _ ih.2
    · exact ⟨Nat.zero_le 1, rfl⟩

/-- Claim C5: at most one connection is ever accepted per `execute` run —
every run trace contains at most one successful accept, and after the
first successful accept the listening endpoint is never touched again:
no accept attempt of any kind follows it. -/
theorem claim_C5 (t : BenchTarget) (home : String) (args : List String)
    (world : ExecEnv) :
    countAcceptOk (execute t home args world).2 ≤ 1 ∧
    acceptsAfterFirstOk (execute t home args world).2 = 0 := by
  obtain ⟨br, nr, lr, spr, ascript, comm⟩ := world
  rcases br with be | bu
  · exact ⟨Nat.zero_le 1, rfl⟩
  · rcases nr with ne2 | nu
    · exact ⟨Nat.zero_le 1, rfl⟩
    · rcases lr with le2 | p
      · exact ⟨Nat.zero_le 1, rfl⟩
      · rcases spr with spe | spu
        · exact ⟨Nat.zero_le 1, rfl⟩
        · have hinv := acceptLoop_inv t.name comm ascript
          constructor
          · show countAcceptOk (Act.spawn
              (buildCommand t.executable home args p) ::
              (acceptLoop t.name comm ascript).2) ≤ 1
            rw [show countAcceptOk (Act.spawn
                  (buildCommand t.executable home args p) ::
                  (acceptLoop t.name comm ascript).2) =
                countAcceptOk (acceptLoop t.name comm ascript).2 from
                List.countP_cons_of_neg _ _ (by simp [Act.isAcceptOk])]
            exact hinv.1
          · show acceptsAfterFirstOk (Act.spawn
              (buildCommand t.executable home args p) ::
              (acceptLoop t.name comm ascript).2) = 0
            rw [acceptsAfterFirstOk_cons
                (Act.spawn (buildCommand t.executable home args p))
                (acceptLoop t.name comm ascript).2 rfl]
            exact hinv.2

/-! ### Error provenance lemmas -/

lemma afterWait_err_name (name : String) (w : Except IoErr (Option ExitStatus))
    (k : Option (Except TargetError Unit) × List Act) (err : TargetError)
    (h : (afterWait name w k).1 = some (Except.error err)) :
    err.targetName = name ∨ k.1 = some (Except.error err) := by
  rcases w with e | (_ | st)
  · left
    simp [afterWait] at h
    subst h
    rfl
  · right
    simpa [afterWait] using h
  · left
    by_cases hs : st.success
    · simp [afterWait, hs] at h
    · simp [afterWait, hs] at h
      subst h
      rfl

lemma communicate_err_name (name : String) (s : List CommEvent) :
    ∀ err : TargetError,
      (communicate name s).1 = some (Except.error err) →
      err.targetName = name := by
  induction s with
  | nil => intro err h; simp [communicate] at h
  | cons ev rest ih =>
    intro err h
    obtain ⟨rr, sr, wr⟩ := ev
    rcases rr with re | (_ | m)
    · simp [communicate] at h
      subst h
      rfl
    · simp [communicate] at h
    · have next : (afterWait name wr (communicate name rest)).1 =
          some (Except.error err) → err.targetName = name := by
        intro hmid
        rcases afterWait_err_name name wr (communicate name rest) err hmid
          with h1 | h2
        · exact h1
        · exact ih err h2
      rcases m with g | g | id | id | ⟨id, n⟩ | ⟨id, a2, b2, c2, d2⟩ |
        ⟨id, a2, b2⟩
      · exact next (by simpa [communicate] using h)
      · exact next (by simpa [communicate] using h)
      · rcases sr with se | su
        · simp [communicate] at h
          subst h
          rfl
        · exact next (by simpa [communicate] using h)
      · exact next (by simpa [communicate] using h)
      · exact next (by simpa [communicate] using h)
      · exact next (by simpa [communicate] using h)
      · exact next (by simpa [communicate] using h)

lemma acceptLoop_err_name (name : String) (comm : List CommEvent)
    (s : List AcceptEvent) :
    ∀ err : TargetError,
      (acceptLoop name comm s).1 = some (Except.error err) →
      err.targetName = name := by
  induction s with
  | nil => intro err h; simp [acceptLoop] at h
  | cons ev rest ih =>
    intro err h
    obtain ⟨ar, cr, wr⟩ := ev
    rcases ar with _ | _ | e
    · rcases cr with ce | cu
      · simp [acceptLoop] at h
        subst h
        rfl
      · exact communicate_err_name name comm err (by simpa [acceptLoop] using h)
    · have hmid : (afterWait name wr (acceptLoop name comm rest)).1 =
          some (Except.error err) := by simpa [acceptLoop] using h
      rcases afterWait_err_name name wr (acceptLoop name comm rest) err hmid
        with h1 | h2
      · exact h1
      · exact ih err h2
    · simp [acceptLoop] at h
      subst h
      rfl

lemma execute_err_name (t : BenchTarget) (home : String) (args : List String)
    (world : ExecEnv) :
    ∀ err : TargetError,
      (execute t home args world).1 = some (Except.error err) →
      err.targetName = t.name := by
  obtain ⟨br, nr, lr, spr, ascript, comm⟩ := world
  intro err h
  rcases br with be | bu
  · simp [execute] at h
    subst h
    rfl
  · rcases nr with ne2 | nu
    · simp [execute] at h
      subst h
      rfl
    · rcases lr with le2 | p
      · simp [execute] at h
        subst h
        rfl
      · rcases spr with spe | spu
        · simp [execute] at h
          subst h
          rfl
        · exact acceptLoop_err_name t.name comm ascript err
            (by simpa [execute] using h)

/-- Claim C6: every error `execute` returns carries the originating
target's name, and the failure surfaces map onto the four error kinds:
bind, local-address query, spawn, non-WouldBlock accept and
exit-status-poll failures become `IoError`; `Connection` construction
failure becomes `ConnectionError`; recv and send failures become
`MessageError`; a non-success child exit becomes `TargetFailed`. -/
theorem claim_C6 (t : BenchTarget) (home : String) (args : List String) :
    (∀ (world : ExecEnv) (err : TargetError),
        (execute t home args world).1 = some (Except.error err) →
        err.targetName = t.name)
    ∧ (∀ e x2 x3 x4 ascript comm,
        (execute t home args ⟨Except.error e, x2, x3, x4, ascript, comm⟩).1 =
          some (Except.error (TargetError.IoError t.name e)))
    ∧ (∀ e x4 ascript comm,
        (execute t home args
          ⟨Except.ok (), Except.ok (), Except.error e, x4, ascript, comm⟩).1 =
          some (Except.error (TargetError.IoError t.name e)))
    ∧ (∀ e p ascript comm,
        (execute t home args
          ⟨Except.ok (), Except.ok (), Except.ok p, Except.error e,
            ascript, comm⟩).1 =
          some (Except.error (TargetError.IoError t.name e)))
    ∧ (∀ (name : String) comm e cr w rest,
        (acceptLoop name comm (⟨AcceptResult.err e, cr, w⟩ :: rest)).1 =
          some (Except.error (TargetError.IoError name e)))
    ∧ (∀ (name : String) e k,
        (afterWait name (Except.error e) k).1 =
          some (Except.error (TargetError.IoError name e)))
    ∧ (∀ (name : String) comm ce w rest,
        (acceptLoop name comm (⟨AcceptResult.ok, Except.error ce, w⟩ :: rest)).1 =
          some (Except.error (TargetError.ConnectionError name ce)))
    ∧ (∀ (name : String) me sr w rest,
        (communicate name (⟨Except.error me, sr, w⟩ :: rest)).1 =
          some (Except.error (TargetError.MessageError name me)))
    ∧ (∀ (name : String) id me w rest,
        (communicate name
          (⟨Except.ok (some (IncomingMessage.BeginningBenchmark id)),
              Except.error me, w⟩ :: rest)).1 =
          some (Except.error (TargetError.MessageError name me)))
    ∧ (∀ (name : String) (st : ExitStatus) k, st.success = false →
        (afterWait name (Except.ok (some st)) k).1 =
          some (Except.error (TargetError.TargetFailed name st))) :=
  ⟨fun world err h => execute_err_name t home args world err h,
   fun _ _ _ _ _ _ => rfl,
   fun _ _ _ _ => rfl,
   fun _ _ _ _ => rfl,
   fun _ _ _ _ _ _ => rfl,
   fun _ _ _ => rfl,
   fun _ _ _ _ _ => rfl,
   fun _ _ _ _ _ => rfl,
   fun _ _ _ _ _ => rfl,
   fun name st k h => by simp [afterWait, h]⟩

theorem claim_C6_witness :
    (TargetError.IoError "n" ⟨3⟩).targetName = (BenchTarget.mk "n" "x").name
    ∧ (afterWait "n" (Except.ok (some ⟨5⟩))
        ((none : Option (Except TargetError Unit)), ([] : List Act))).1 =
        some (Except.error (TargetError.TargetFailed "n" ⟨5⟩)) :=
  ⟨(claim_C6 ⟨"n", "x"⟩ "h" []).1
      ⟨Except.error ⟨3⟩, Except.ok (), Except.ok 0, Except.ok (), [], []⟩
      (TargetError.IoError "n" ⟨3⟩) rfl,
   (claim_C6 ⟨"n", "x"⟩ "h" []).2.2.2.2.2.2.2.2.2 "n" ⟨5⟩
      ((none : Option (Except TargetError Unit)), ([] : List Act))
      (by decide)⟩

/-- Claim C7: in every acceptor-loop iteration the non-blocking accept is
attempted first — the iteration's trace always begins with an accept
action — and the child's exit status is polled only when accept returned
WouldBlock: a non-WouldBlock accept error returns at once with no poll, a
successful accept goes straight to `Connection` construction and the
event loop with no acceptor-level poll, and only the WouldBlock branch
continues into the `try_wait` handling. -/
theorem claim_C7 (name : String) (comm : List CommEvent) (ev : AcceptEvent)
    (rest : List AcceptEvent) :
    (∀ e, ev.acceptResult = AcceptResult.err e →
      acceptLoop name comm (ev :: rest) =
        (some (Except.error (TargetError.IoError name e)),
          [Act.accept AcceptKind.err]))
    ∧ (∀ ce, ev.acceptResult = AcceptResult.ok →
        ev.connResult = Except.error ce →
        acceptLoop name comm (ev :: rest) =
          (some (Except.error (TargetError.ConnectionError name ce)),
            [Act.accept AcceptKind.ok, Act.connNew]))
    ∧ (ev.acceptResult = AcceptResult.ok → ev.connResult = Except.ok () →
        acceptLoop name comm (ev :: rest) =
          ((communicate name comm).1,
            Act.accept AcceptKind.ok :: Act.connNew ::
              (communicate name comm).2))
    ∧ (ev.acceptResult = AcceptResult.wouldBlock →
        acceptLoop name comm (ev :: rest) =
          ((afterWait name ev.waitResult (acceptLoop name comm rest)).1,
            Act.accept AcceptKind.wouldBlock ::
              (afterWait name ev.waitResult (acceptLoop name comm rest)).2)) := by
  obtain ⟨ar, cr, wr⟩ := ev
  refine ⟨fun e ha => ?_, fun ce ha hc => ?_, fun ha hc => ?_, fun ha => ?_⟩
  · have ha2 : ar = AcceptResult.err e := ha
    subst ha2
    rfl
  · have ha2 : ar = AcceptResult.ok := ha
    have hc2 : cr = Except.error ce := hc
    subst ha2
    subst hc2
    rfl
  · have ha2 : ar = AcceptResult.ok := ha
    have hc2 : cr = Except.ok () := hc
    subst ha2
    subst hc2
    rfl
  · have ha2 : ar = AcceptResult.wouldBlock := ha
    subst ha2
    rfl

theorem claim_C7_witness :
    acceptLoop "n" []
      (⟨AcceptResult.wouldBlock, Except.ok (), Except.ok none⟩ :: []) =
      ((afterWait "n" (Except.ok none) (acceptLoop "n" [] [])).1,
        Act.accept AcceptKind.wouldBlock ::
          (afterWait "n" (Except.ok none) (acceptLoop "n" [] [])).2) :=
  (claim_C7 "n" [] ⟨AcceptResult.wouldBlock, Except.ok (), Except.ok none⟩
    []).2.2.2 rfl

/-- Claim C10: when accept succeeds the acceptor never polls the child
in that iteration — even when the oracle records that the child has
already exited with some status, the iteration's outcome is fully
determined by `Connection` construction and the protocol event loop (the
equation's right-hand side does not consult the wait result), and any
`TargetFailed` outcome of the run can only have been produced by the
event loop, never by the acceptor iteration itself. -/
theorem claim_C10 (name : String) (comm : List CommEvent) (ev : AcceptEvent)
    (rest : List AcceptEvent) (st : ExitStatus)
    (hacc : ev.acceptResult = AcceptResult.ok)
    (hexit : ev.waitResult = Except.ok (some st)) :
    (acceptLoop name comm (ev :: rest) =
      match ev.connResult with
      | Except.error ce =>
          (some (Except.error (TargetError.ConnectionError name ce)),
            [Act.accept AcceptKind.ok, Act.connNew])
      | Except.ok _ =>
          ((communicate name comm).1,
            Act.accept AcceptKind.ok :: Act.connNew ::
              (communicate name comm).2))
    ∧ ∀ s2 : ExitStatus,
        (acceptLoop name comm (ev :: rest)).1 =
          some (Except.error (TargetError.TargetFailed name s2)) →
        (communicate name comm).1 =
          some (Except.error (TargetError.TargetFailed name s2)) := by
  obtain ⟨ar, cr, wr⟩ := ev
  have ha2 : ar = AcceptResult.ok := hacc
  have hw2 : wr = Except.ok (some st) := hexit
  subst ha2
  subst hw2
  rcases cr with ce | cu
  · refine ⟨rfl, fun s2 h2 => ?_⟩
    simp [acceptLoop] at h2
  · exact ⟨rfl, fun s2 h2 => h2⟩

theorem claim_C10_witness :
    acceptLoop "n" []
      (⟨AcceptResult.ok, Except.ok (), Except.ok (some ⟨9⟩)⟩ :: []) =
      ((communicate "n" []).1,
        Act.accept AcceptKind.ok :: Act.connNew :: (communicate "n" []).2) :=
  (claim_C10 "n" [] ⟨AcceptResult.ok, Except.ok (), Except.ok (some ⟨9⟩)⟩
    [] ⟨9⟩ rfl rfl).1

/-- Claim C8: whenever `execute` reaches the spawn (bind, set_nonblocking
and local-address query succeeded, the port being `p`), the child is
spawned with the fixed leading `--bench` argument followed by the
caller-supplied additional arguments, environment variables
`CRITERION_HOME` (the home path) and `CARGO_CRITERION_PORT` (the decimal
port of the bound listener), stdin discarded and stdout/stderr inherited
— whether or not the spawn itself then succeeds. -/
theorem claim_C8 (t : BenchTarget) (home : String) (args : List String)
    (p : Nat) (world : ExecEnv)
    (h1 : world.bindResult = Except.ok ())
    (h2 : world.nonblockingResult = Except.ok ())
    (h3 : world.localAddrResult = Except.ok p) :
    ∃ tail, (execute t home args world).2 =
      Act.spawn
        { program := t.executable
          args := "--bench" :: args
          env := [("CRITERION_HOME", home), ("CARGO_CRITERION_PORT", toString p)]
          stdin := Stdio.null
          stdout := Stdio.inherit
          stderr := Stdio.inherit } :: tail := by
  obtain ⟨br, nr, lr, spr, ascript, comm⟩ := world
  have hb : br = Except.ok () := h1
  have hn : nr = Except.ok () := h2
  have hl : lr = Except.ok p := h3
  subst hb
  subst hn
  subst hl
  rcases spr with spe | spu
  · exact ⟨[], rfl⟩
  · exact ⟨(acceptLoop t.name comm ascript).2, rfl⟩

theorem claim_C8_witness :
    ∃ tail,
      (execute ⟨"t", "exe"⟩ "homedir" ["alpha"]
        ⟨Except.ok (), Except.ok (), Except.ok 7, Except.ok (), [], []⟩).2 =
      Act.spawn
        { program := (BenchTarget.mk "t" "exe").executable
          args := "--bench" :: ["alpha"]
          env := [("CRITERION_HOME", "homedir"),
                  ("CARGO_CRITERION_PORT", toString 7)]
          stdin := Stdio.null
          stdout := Stdio.inherit
          stderr := Stdio.inherit } :: tail :=
  claim_C8 ⟨"t", "exe"⟩ "homedir" ["alpha"] 7
    ⟨Except.ok (), Except.ok (), Except.ok 7, Except.ok (), [], []⟩
    rfl rfl rfl

/-- Claim C9: through the standard error-source chain, `TargetFailed`
exposes no underlying cause (its source is `none`), while `IoError`,
`MessageError` and `ConnectionError` each expose exactly their wrapped
underlying error. -/
theorem claim_C9 :
    (∀ (n : String) (st : ExitStatus),
        (TargetError.TargetFailed n st).source = none)
    ∧ (∀ (n : String) (e : IoErr),
        (TargetError.IoError n e).source = some (ErrCause.io e))
    ∧ (∀ (n : String) (e : MessageError),
        (TargetError.MessageError n e).source = some (ErrCause.msg e))
    ∧ (∀ (n : String) (e : ConnectionError),
        (TargetError.ConnectionError n e).source = some (ErrCause.conn e)) :=
  ⟨fun _ _ => rfl, fun _ _ => rfl, fun _ _ => rfl, fun _ _ => rfl⟩
